import Mathlib

/-!
Shallow embedding of the watchtower smart-lock pipeline.

Each definition mirrors one function of the source tree:
- `write_event`, `Conn.commit` mirror `event_store.py` (an aiosqlite
  connection with an implicit open transaction that is only flushed by
  an explicit commit; no rollback is ever issued by `write_event`).
- `cycle`, `polling_run` mirror the body of `polling_loop` in `main.py`.
- `identify`, `enroll`, `reload_states` mirror `face_recognizer.py`.
- `wait_for_event` mirrors `ring_client.py`.
- `crop_person_bbox`, `detections_to_dicts` mirror `object_detector.py`.

External libraries (PIL, face_recognition, YOLO, the network clients)
are modelled as oracle parameters; machine floats are modelled as
rationals, timestamps as rationals.
-/

namespace Watchtower

/-- A detection dict as passed to `EventStore.write_event`.  `none` in
`label`/`confidence` models a missing mandatory key (access raises
`KeyError`); the bbox fields are read with `.get` and may be absent. -/
structure DetDict where
  label : Option String
  confidence : Option ℚ
  bbox_x1 : Option ℚ
  bbox_y1 : Option ℚ
  bbox_x2 : Option ℚ
  bbox_y2 : Option ℚ
deriving DecidableEq

/-- One row of the `events` table (columns written by `write_event`;
`unlock_granted` is stored as the INTEGER 1 or 0). -/
structure EventRow where
  id : Nat
  camera_id : String
  recorded_at : String
  event_type : String
  recording_id : Option String
  person_name : Option String
  face_confidence : Option ℚ
  face_distance : Option ℚ
  unlock_granted : Nat
  door_action : String
  thumbnail_path : Option String
deriving DecidableEq

/-- One row of the `detections` table. -/
structure DetRow where
  event_id : Nat
  label : String
  confidence : ℚ
  bbox_x1 : Option ℚ
  bbox_y1 : Option ℚ
  bbox_x2 : Option ℚ
  bbox_y2 : Option ℚ
deriving DecidableEq

/-- The keyword arguments of `EventStore.write_event` other than
`detections`. -/
structure EventFields where
  camera_id : String
  recorded_at : String
  recording_id : Option String
  event_type : String
  person_name : Option String
  face_confidence : Option ℚ
  face_distance : Option ℚ
  unlock_granted : Bool
  door_action : String
  thumbnail_path : Option String
deriving DecidableEq

/-- The state of the aiosqlite connection: durably committed rows plus
the rows inserted in the currently open (implicit) transaction.
`next_id` models the AUTOINCREMENT id counter. -/
structure Conn where
  committed_events : List EventRow
  committed_dets : List DetRow
  pending_events : List EventRow
  pending_dets : List DetRow
  next_id : Nat
deriving DecidableEq

/-- `await self.db.commit()`: every pending row becomes durable. -/
def Conn.commit (c : Conn) : Conn :=
  { committed_events := c.committed_events ++ c.pending_events
    committed_dets := c.committed_dets ++ c.pending_dets
    pending_events := []
    pending_dets := []
    next_id := c.next_id }

/-- Building one parameter tuple for the `detections` INSERT:
`d["label"]` and `d["confidence"]` raise `KeyError` when absent
(modelled by `none`); the bbox values go through `d.get`. -/
def detRowOf (eid : Nat) (d : DetDict) : Option DetRow :=
  match d.label, d.confidence with
  | some l, some cf =>
      some { event_id := eid, label := l, confidence := cf
             bbox_x1 := d.bbox_x1, bbox_y1 := d.bbox_y1
             bbox_x2 := d.bbox_x2, bbox_y2 := d.bbox_y2 }
  | _, _ => none

/-- The `events` INSERT parameter tuple of `write_event`. -/
def eventRowOf (eid : Nat) (f : EventFields) : EventRow :=
  { id := eid, camera_id := f.camera_id, recorded_at := f.recorded_at
    event_type := f.event_type, recording_id := f.recording_id
    person_name := f.person_name, face_confidence := f.face_confidence
    face_distance := f.face_distance
    unlock_granted := if f.unlock_granted then 1 else 0
    door_action := f.door_action, thumbnail_path := f.thumbnail_path }

/-- `EventStore.write_event`: inserts the event row into the open
transaction, then (when `detections` is truthy) builds the detection
tuples and inserts them, then commits.  A malformed detection dict
raises before the commit, so the function returns with the transaction
still open and dirty — the source has no rollback and no try/except.
Returns the new connection state and `some event_id` on success,
`none` on the raised error. -/
def write_event (c : Conn) (f : EventFields) (detections : List DetDict) :
    Conn × Option Nat :=
  let eid := c.next_id
  let c1 : Conn :=
    { c with pending_events := c.pending_events ++ [eventRowOf eid f]
             next_id := eid + 1 }
  if detections.isEmpty then (c1.commit, some eid)
  else
    match detections.mapM (detRowOf eid) with
    | none => (c1, none)
    | some rows =>
        (({ c1 with pending_dets := c1.pending_dets ++ rows }).commit, some eid)

/-- A fresh connection right after `initialize` on an empty database. -/
def connEmpty : Conn :=
  { committed_events := [], committed_dets := []
    pending_events := [], pending_dets := [], next_id := 1 }

/-- Fields of a first, failing event write. -/
def fieldsA : EventFields :=
  { camera_id := "front_door", recorded_at := "2026-02-25T10:30:00"
    recording_id := none, event_type := "motion", person_name := none
    face_confidence := none, face_distance := none
    unlock_granted := false, door_action := "none", thumbnail_path := none }

/-- Fields of a second, succeeding event write. -/
def fieldsB : EventFields :=
  { camera_id := "front_door", recorded_at := "2026-02-25T10:31:00"
    recording_id := none, event_type := "ding", person_name := none
    face_confidence := none, face_distance := none
    unlock_granted := false, door_action := "none", thumbnail_path := none }

/-- A detection dict missing the mandatory "label" key. -/
def badDet : DetDict :=
  { label := none, confidence := some (1 / 2)
    bbox_x1 := none, bbox_y1 := none, bbox_x2 := none, bbox_y2 := none }

/-- Claim C1: a `write_event` call with a malformed detection dict fails
and, at the end of the failing call, zero new rows are committed; but
because `write_event` never rolls back, the orphaned event row stays in
the open transaction and the very next successful `write_event` on the
same connection durably commits it with zero detection rows — so an
orphaned event row does survive a failure, against the claimed
atomicity. -/
theorem write_event_orphan_row_survives_failure :
    (write_event connEmpty fieldsA [badDet]).2 = none
  ∧ (write_event connEmpty fieldsA [badDet]).1.committed_events = []
  ∧ (write_event connEmpty fieldsA [badDet]).1.committed_dets = []
  ∧ (write_event (write_event connEmpty fieldsA [badDet]).1 fieldsB []).1.committed_events
      = [eventRowOf 1 fieldsA, eventRowOf 2 fieldsB]
  ∧ (write_event (write_event connEmpty fieldsA [badDet]).1 fieldsB []).1.committed_dets
      = [] := by
  decide

/-- One entry of the upstream history returned by
`doorbell.async_history(limit=1)`: the raw event id and the optional
"kind" value (read with `.get("kind", "motion")`). -/
structure HistEntry where
  id : Nat
  kind : Option String
deriving DecidableEq

/-- `RingClient.wait_for_event`: given the newest upstream history and
the stored `_last_event_id` baseline, returns the new baseline and
`some (recording_id, kind)` when a new event is detected.  The first
poll with a nonempty history only records the baseline; later polls
compare the stringified newest id with the baseline. -/
def wait_for_event (history : List HistEntry) (last_event_id : Option String) :
    Option String × Option (Nat × String) :=
  match history with
  | [] => (last_event_id, none)
  | latest :: _ =>
    let event_id := toString latest.id
    match last_event_id with
    | none => (some event_id, none)
    | some prev =>
      if event_id ≠ prev then
        (some event_id, some (latest.id, latest.kind.getD "motion"))
      else (last_event_id, none)

/-- Claim C5: the first poll returns None for every upstream state and,
when upstream history is nonempty, records its newest id as the
baseline; a poll with baseline `b` yields an occurrence exactly when
the newest upstream id exists and differs from `b`, in which case it
yields exactly that occurrence and moves the baseline to it. -/
theorem wait_for_event_baseline_spec :
    (∀ history : List HistEntry, (wait_for_event history none).2 = none)
  ∧ (∀ (e : HistEntry) (rest : List HistEntry),
      (wait_for_event (e :: rest) none).1 = some (toString e.id))
  ∧ (∀ (history : List HistEntry) (b : String),
      ((wait_for_event history (some b)).2).isSome
        ↔ ∃ e rest, history = e :: rest ∧ toString e.id ≠ b)
  ∧ (∀ (e : HistEntry) (rest : List HistEntry) (b : String),
      toString e.id ≠ b →
        wait_for_event (e :: rest) (some b)
          = (some (toString e.id), some (e.id, e.kind.getD "motion"))) := by
  refine ⟨?_, ?_, ?_, ?_⟩
  · intro history
    cases history <;> rfl
  · intro e rest
    rfl
  · intro history b
    cases history with
    | nil => simp [wait_for_event]
    | cons e rest =>
      by_cases h : toString e.id = b
      · simp [wait_for_event, h]
      · simp only [wait_for_event, ne_eq, h, not_false_iff, if_true,
          Option.isSome_some, true_iff]
        exact ⟨e, rest, rfl, h⟩
  · intro e rest b h
    simp [wait_for_event, h]

/-- Claim C5 witness: concrete baseline-then-new-event run through
`wait_for_event`. -/
theorem wait_for_event_baseline_spec_witness :
    wait_for_event [⟨42, some "ding"⟩] (some "7")
      = (some "42", some (42, "ding")) :=
  wait_for_event_baseline_spec.2.2.2 ⟨42, some "ding"⟩ [] "7" (by decide)

/-- Whether the second character list starts with the first — the
semantics of the glob pattern `name_*` used by `enroll`. -/
def globMatch : List Char → List Char → Bool
  | [], _ => true
  | _ :: _, [] => false
  | p :: ps, c :: cs => p = c && globMatch ps cs

/-- Python `str.lower` on the extension. -/
def lowerStr (s : String) : String :=
  ⟨s.data.map Char.toLower⟩

/-- `FaceRecognizer.enroll` filename derivation: `dir_files` is the
listing of the enrollment directory, `existing` the glob matches of
`name_*`, and the produced filename is `name_(len+1)(ext.lower())`. -/
def enrollFilename (dir_files : List String) (name ext : String) : String :=
  let existing := dir_files.filter (fun f => globMatch (name ++ "_").data f.data)
  name ++ "_" ++ toString (existing.length + 1) ++ lowerStr ext

/-- `FaceRecognizer.enroll`: rejects an image with zero or several
detected faces, otherwise saves under the derived filename (there is
no check that the filename is fresh) and returns it. -/
def enroll (face_count : Nat) (dir_files : List String) (name ext : String) :
    Except String String :=
  if face_count = 0 then .error "No face detected in the uploaded image"
  else if 1 < face_count then .error "Multiple faces detected"
  else .ok (enrollFilename dir_files name ext)

/-- Claim C10: the saved filename is `name_(count+1)ext` where `count`
counts the directory entries matching `name_*`; on the non-contiguous
state `alice_1.jpg, alice_3.jpg` enrollment therefore returns
`alice_3.jpg`, the name of an already-existing file, which the
unconditional save silently overwrites. -/
theorem enroll_gap_index_overwrites :
    (∀ (dir_files : List String) (name ext : String),
      enrollFilename dir_files name ext
        = name ++ "_"
            ++ toString
              ((dir_files.filter
                  (fun f => globMatch (name ++ "_").data f.data)).length + 1)
            ++ lowerStr ext)
  ∧ enroll 1 ["alice_1.jpg", "alice_3.jpg"] "alice" ".jpg" = .ok "alice_3.jpg"
  ∧ "alice_3.jpg" ∈ ["alice_1.jpg", "alice_3.jpg"] := by
  refine ⟨fun _ _ _ => rfl, ?_, by decide⟩
  show Except.ok (enrollFilename ["alice_1.jpg", "alice_3.jpg"] "alice" ".jpg")
      = Except.ok "alice_3.jpg"
  exact congrArg Except.ok (by decide)

/-- The gallery state a concurrent `identify` call can read: the two
parallel lists `known_encodings` and `known_names`. -/
structure GalleryView (Enc : Type) where
  encodings : List Enc
  names : List String
deriving DecidableEq

/-- The reader-visible states produced while `_load_known_faces` runs:
each successfully loaded file appends its encoding and then its name,
two separate mutations. -/
def load_steps {Enc : Type} (g : GalleryView Enc) :
    List (Option Enc × String) → List (GalleryView Enc)
  | [] => []
  | (none, _) :: rest => load_steps g rest
  | (some e, n) :: rest =>
    let g1 : GalleryView Enc := { encodings := g.encodings ++ [e], names := g.names }
    let g2 : GalleryView Enc := { encodings := g1.encodings, names := g1.names ++ [n] }
    g1 :: g2 :: load_steps g2 rest

/-- `FaceRecognizer.reload`: the sequence of gallery states a
concurrent reader can observe, in program order — after
`known_encodings.clear()`, after `known_names.clear()`, then after
every append performed by `_load_known_faces`.  `loads` gives, per
directory file, the optional encoding and derived name. -/
def reload_states {Enc : Type} (old : GalleryView Enc)
    (loads : List (Option Enc × String)) : List (GalleryView Enc) :=
  let cleared1 : GalleryView Enc := { encodings := [], names := old.names }
  let cleared2 : GalleryView Enc := { encodings := [], names := [] }
  cleared1 :: cleared2 :: load_steps cleared2 loads

/-- The gallery state once `reload` has finished. -/
def reload_final {Enc : Type} (loads : List (Option Enc × String)) :
    GalleryView Enc :=
  { encodings := loads.filterMap Prod.fst
    names := loads.filterMap (fun p => if p.1.isSome then some p.2 else none) }

/-- Claim C9: with one enrolled identity and one file to load, the
in-place `clear` + `append` reload exposes the fully empty gallery to
a concurrent reader — a state that is neither the complete old gallery
nor the complete new one, so the replacement is not atomic. -/
theorem reload_not_atomic_empty_window :
    (⟨[], []⟩ : GalleryView ℕ) ∈
        reload_states (⟨[7], ["alice"]⟩ : GalleryView ℕ) [(some 8, "bob")]
  ∧ (⟨[], []⟩ : GalleryView ℕ) ≠ (⟨[7], ["alice"]⟩ : GalleryView ℕ)
  ∧ (⟨[], []⟩ : GalleryView ℕ)
      ≠ (reload_final [(some 8, "bob")] : GalleryView ℕ)
  ∧ (reload_final [(some 8, "bob")] : GalleryView ℕ)
      = (⟨[8], ["bob"]⟩ : GalleryView ℕ) := by
  refine ⟨?_, by decide, by decide, by decide⟩
  simp [reload_states, load_steps]

/-- A YOLO detection as produced by `ObjectDetector._predict_sync`. -/
structure Detection where
  label : String
  confidence : ℚ
  bbox_x1 : ℚ
  bbox_y1 : ℚ
  bbox_x2 : ℚ
  bbox_y2 : ℚ
deriving DecidableEq

/-- `detections_to_dicts`: bridge from `Detection` values to the dict
format expected by `write_event` — every key present. -/
def detections_to_dicts (detections : List Detection) : List DetDict :=
  detections.map (fun d =>
    { label := some d.label, confidence := some d.confidence
      bbox_x1 := some d.bbox_x1, bbox_y1 := some d.bbox_y1
      bbox_x2 := some d.bbox_x2, bbox_y2 := some d.bbox_y2 })

/-- Python `round` (round half to even), used by PIL when it converts
the float crop box to pixel coordinates. -/
def pyRound (q : ℚ) : ℤ :=
  let fl := ⌊q⌋
  let fr := q - fl
  if fr < 1 / 2 then fl
  else if 1 / 2 < fr then fl + 1
  else if fl % 2 = 0 then fl else fl + 1

/-- `pyRound` stays within half a unit above its argument. -/
lemma pyRound_le_add_half (q : ℚ) : (pyRound q : ℚ) ≤ q + 1 / 2 := by
  have h1 : (⌊q⌋ : ℚ) ≤ q := Int.floor_le q
  have h2 : q < (⌊q⌋ : ℚ) + 1 := Int.lt_floor_add_one q
  simp only [pyRound]
  split_ifs with ha hb hc
  · linarith
  · push_cast
    linarith
  · linarith
  · push_cast
    linarith

/-- `pyRound` stays within half a unit below its argument. -/
lemma sub_half_le_pyRound (q : ℚ) : q - 1 / 2 ≤ (pyRound q : ℚ) := by
  have h1 : (⌊q⌋ : ℚ) ≤ q := Int.floor_le q
  have h2 : q < (⌊q⌋ : ℚ) + 1 := Int.lt_floor_add_one q
  simp only [pyRound]
  split_ifs with ha hb hc
  · linarith
  · push_cast
    linarith
  · linarith
  · push_cast
    linarith

/-- `crop_person_bbox`: decodes the frame (the oracle `decodeSize`
yields the pixel size, or `none` for undecodable bytes), clamps the
bbox to the frame, rejects a degenerate clamped box, and returns the
pixel size of the PIL crop (each box coordinate rounded as Python
`round` does).  A clamped box of positive width that nevertheless
rounds to zero pixels in either dimension produces an empty crop whose
JPEG save raises inside the try block; the except-Exception handler
returns `none` — the second guard models that path. -/
def crop_person_bbox (decodeSize : List Nat → Option (Nat × Nat))
    (frame_bytes : List Nat) (detection : Detection) : Option (ℤ × ℤ) :=
  match decodeSize frame_bytes with
  | none => none
  | some (img_width, img_height) =>
    let x1 := max 0 detection.bbox_x1
    let y1 := max 0 detection.bbox_y1
    let x2 := min (img_width : ℚ) detection.bbox_x2
    let y2 := min (img_height : ℚ) detection.bbox_y2
    if x2 - x1 ≤ 0 ∨ y2 - y1 ≤ 0 then none
    else if pyRound x2 - pyRound x1 ≤ 0 ∨ pyRound y2 - pyRound y1 ≤ 0 then none
    else some (pyRound x2 - pyRound x1, pyRound y2 - pyRound y1)

/-- Exact value of `pyRound` when the fractional part is below one
half. -/
lemma pyRound_eq_of_lt_half (q : ℚ) (n : ℤ) (h1 : (n : ℚ) ≤ q)
    (h2 : q < (n : ℚ) + 1 / 2) : pyRound q = n := by
  have hfl : ⌊q⌋ = n := by
    rw [Int.floor_eq_iff]
    refine ⟨h1, ?_⟩
    linarith
  simp only [pyRound, hfl]
  rw [if_pos (by linarith : q - (n : ℚ) < 1 / 2)]


/-- Claim C8 amended: for a decodable frame of size `w × h`: a bbox
fully inside the frame whose width and height exceed one pixel yields
a crop whose pixel size matches the bbox size to within one pixel of
rounding; any returned crop is no larger than the frame; a clamped box
of nonpositive width or height yields `none`; a clamped box that
rounds to zero pixels in either dimension yields `none` (the empty
crop's JPEG save raises and is caught); and undecodable frame bytes
yield `none`. -/
theorem crop_person_bbox_spec :
    (∀ (decodeSize : List Nat → Option (Nat × Nat)) (frame : List Nat)
        (d : Detection) (w h : Nat), decodeSize frame = some (w, h) →
      ((0 ≤ d.bbox_x1 ∧ 0 ≤ d.bbox_y1 ∧ d.bbox_x2 ≤ (w : ℚ) ∧ d.bbox_y2 ≤ (h : ℚ) ∧
          d.bbox_x1 + 1 < d.bbox_x2 ∧ d.bbox_y1 + 1 < d.bbox_y2) →
        ∃ cw ch, crop_person_bbox decodeSize frame d = some (cw, ch) ∧
          |(cw : ℚ) - (d.bbox_x2 - d.bbox_x1)| ≤ 1 ∧
          |(ch : ℚ) - (d.bbox_y2 - d.bbox_y1)| ≤ 1)
      ∧ (∀ cw ch, crop_person_bbox decodeSize frame d = some (cw, ch) →
          cw ≤ (w : ℤ) ∧ ch ≤ (h : ℤ))
      ∧ ((min (w : ℚ) d.bbox_x2 - max 0 d.bbox_x1 ≤ 0 ∨
            min (h : ℚ) d.bbox_y2 - max 0 d.bbox_y1 ≤ 0) →
          crop_person_bbox decodeSize frame d = none)
      ∧ ((pyRound (min (w : ℚ) d.bbox_x2) - pyRound (max 0 d.bbox_x1) ≤ 0 ∨
            pyRound (min (h : ℚ) d.bbox_y2) - pyRound (max 0 d.bbox_y1) ≤ 0) →
          crop_person_bbox decodeSize frame d = none))
  ∧ (∀ (decodeSize : List Nat → Option (Nat × Nat)) (frame : List Nat)
      (d : Detection), decodeSize frame = none →
        crop_person_bbox decodeSize frame d = none) := by
  constructor
  · intro decodeSize frame d w h hdec
    refine ⟨?_, ?_, ?_, ?_⟩
    · rintro ⟨hx1, hy1, hx2, hy2, hxlt, hylt⟩
      have ex1 : max 0 d.bbox_x1 = d.bbox_x1 := max_eq_right hx1
      have ey1 : max 0 d.bbox_y1 = d.bbox_y1 := max_eq_right hy1
      have ex2 : min (w : ℚ) d.bbox_x2 = d.bbox_x2 := min_eq_right hx2
      have ey2 : min (h : ℚ) d.bbox_y2 = d.bbox_y2 := min_eq_right hy2
      have hpw : 0 < pyRound d.bbox_x2 - pyRound d.bbox_x1 := by
        have b1 := pyRound_le_add_half d.bbox_x1
        have b4 := sub_half_le_pyRound d.bbox_x2
        have hq : (0 : ℚ) < (pyRound d.bbox_x2 : ℚ) - (pyRound d.bbox_x1 : ℚ) := by
          linarith
        exact_mod_cast hq
      have hph : 0 < pyRound d.bbox_y2 - pyRound d.bbox_y1 := by
        have b1 := pyRound_le_add_half d.bbox_y1
        have b4 := sub_half_le_pyRound d.bbox_y2
        have hq : (0 : ℚ) < (pyRound d.bbox_y2 : ℚ) - (pyRound d.bbox_y1 : ℚ) := by
          linarith
        exact_mod_cast hq
      refine ⟨pyRound d.bbox_x2 - pyRound d.bbox_x1,
              pyRound d.bbox_y2 - pyRound d.bbox_y1, ?_, ?_, ?_⟩
      · simp only [crop_person_bbox, hdec, ex1, ey1, ex2, ey2]
        rw [if_neg (by push_neg; constructor <;> linarith :
              ¬(d.bbox_x2 - d.bbox_x1 ≤ 0 ∨ d.bbox_y2 - d.bbox_y1 ≤ 0)),
            if_neg (by push_neg; exact ⟨hpw, hph⟩ :
              ¬(pyRound d.bbox_x2 - pyRound d.bbox_x1 ≤ 0 ∨
                pyRound d.bbox_y2 - pyRound d.bbox_y1 ≤ 0))]
      · have b1 := pyRound_le_add_half d.bbox_x1
        have b2 := sub_half_le_pyRound d.bbox_x1
        have b3 := pyRound_le_add_half d.bbox_x2
        have b4 := sub_half_le_pyRound d.bbox_x2
        rw [abs_le]
        push_cast
        constructor <;> linarith
      · have b1 := pyRound_le_add_half d.bbox_y1
        have b2 := sub_half_le_pyRound d.bbox_y1
        have b3 := pyRound_le_add_half d.bbox_y2
        have b4 := sub_half_le_pyRound d.bbox_y2
        rw [abs_le]
        push_cast
        constructor <;> linarith
    · intro cw ch hsome
      simp only [crop_person_bbox, hdec] at hsome
      by_cases hdeg : min (w : ℚ) d.bbox_x2 - max 0 d.bbox_x1 ≤ 0 ∨
          min (h : ℚ) d.bbox_y2 - max 0 d.bbox_y1 ≤ 0
      · rw [if_pos hdeg] at hsome
        exact absurd hsome (by simp)
      · rw [if_neg hdeg] at hsome
        by_cases hdeg2 : pyRound (min (w : ℚ) d.bbox_x2) - pyRound (max 0 d.bbox_x1) ≤ 0 ∨
            pyRound (min (h : ℚ) d.bbox_y2) - pyRound (max 0 d.bbox_y1) ≤ 0
        · rw [if_pos hdeg2] at hsome
          exact absurd hsome (by simp)
        rw [if_neg hdeg2] at hsome
        have hp := Option.some.inj hsome
        have hcw : pyRound (min (w : ℚ) d.bbox_x2) - pyRound (max 0 d.bbox_x1) = cw :=
          congrArg Prod.fst hp
        have hch : pyRound (min (h : ℚ) d.bbox_y2) - pyRound (max 0 d.bbox_y1) = ch :=
          congrArg Prod.snd hp
        have hx2w : min (w : ℚ) d.bbox_x2 ≤ (w : ℚ) := min_le_left _ _
        have hy2h : min (h : ℚ) d.bbox_y2 ≤ (h : ℚ) := min_le_left _ _
        have hx10 : (0 : ℚ) ≤ max 0 d.bbox_x1 := le_max_left _ _
        have hy10 : (0 : ℚ) ≤ max 0 d.bbox_y1 := le_max_left _ _
        have ux : (pyRound (min (w : ℚ) d.bbox_x2) : ℚ) < (w : ℚ) + 1 := by
          have := pyRound_le_add_half (min (w : ℚ) d.bbox_x2)
          linarith
        have uy : (pyRound (min (h : ℚ) d.bbox_y2) : ℚ) < (h : ℚ) + 1 := by
          have := pyRound_le_add_half (min (h : ℚ) d.bbox_y2)
          linarith
        have lx : (-1 : ℚ) < (pyRound (max 0 d.bbox_x1) : ℚ) := by
          have := sub_half_le_pyRound (max 0 d.bbox_x1)
          linarith
        have ly : (-1 : ℚ) < (pyRound (max 0 d.bbox_y1) : ℚ) := by
          have := sub_half_le_pyRound (max 0 d.bbox_y1)
          linarith
        have ux' : pyRound (min (w : ℚ) d.bbox_x2) ≤ (w : ℤ) := by
          have hq : pyRound (min (w : ℚ) d.bbox_x2) < (w : ℤ) + 1 := by
            exact_mod_cast ux
          omega
        have uy' : pyRound (min (h : ℚ) d.bbox_y2) ≤ (h : ℤ) := by
          have hq : pyRound (min (h : ℚ) d.bbox_y2) < (h : ℤ) + 1 := by
            exact_mod_cast uy
          omega
        have lx' : (0 : ℤ) ≤ pyRound (max 0 d.bbox_x1) := by
          have hq : (-1 : ℤ) < pyRound (max 0 d.bbox_x1) := by
            exact_mod_cast lx
          omega
        have ly' : (0 : ℤ) ≤ pyRound (max 0 d.bbox_y1) := by
          have hq : (-1 : ℤ) < pyRound (max 0 d.bbox_y1) := by
            exact_mod_cast ly
          omega
        omega
    · intro hdeg
      simp only [crop_person_bbox, hdec]
      rw [if_pos hdeg]
    · intro hre
      simp only [crop_person_bbox, hdec]
      by_cases hdeg : min (w : ℚ) d.bbox_x2 - max 0 d.bbox_x1 ≤ 0 ∨
          min (h : ℚ) d.bbox_y2 - max 0 d.bbox_y1 ≤ 0
      · rw [if_pos hdeg]
      · rw [if_neg hdeg, if_pos hre]
  · intro decodeSize frame d hdec
    simp only [crop_person_bbox, hdec]

/-- Frame-size oracle of the C8 witness. -/
def decodeW : List Nat → Option (Nat × Nat) := fun _ => some (640, 480)

/-- Person detection of the C8 witness. -/
def cropDetW : Detection := ⟨"person", 9 / 10, 10, 20, 110, 220⟩

/-- Claim C8 witness: the crop theorem applied to a 640x480 frame and
the in-bounds box (10,20,110,220). -/
theorem crop_person_bbox_spec_witness :
    decodeW [0] = some (640, 480)
  ∧ (0 ≤ cropDetW.bbox_x1 ∧ 0 ≤ cropDetW.bbox_y1 ∧
      cropDetW.bbox_x2 ≤ ((640 : Nat) : ℚ) ∧ cropDetW.bbox_y2 ≤ ((480 : Nat) : ℚ) ∧
      cropDetW.bbox_x1 + 1 < cropDetW.bbox_x2 ∧
      cropDetW.bbox_y1 + 1 < cropDetW.bbox_y2)
  ∧ (∃ cw ch, crop_person_bbox decodeW [0] cropDetW = some (cw, ch) ∧
      |(cw : ℚ) - (cropDetW.bbox_x2 - cropDetW.bbox_x1)| ≤ 1 ∧
      |(ch : ℚ) - (cropDetW.bbox_y2 - cropDetW.bbox_y1)| ≤ 1) :=
  ⟨rfl, by norm_num [cropDetW],
    (crop_person_bbox_spec.1 decodeW [0] cropDetW 640 480 rfl).1
      (by norm_num [cropDetW])⟩

/-- The sub-pixel box of the C8 counterexample: x from 10.2 to 10.4. -/
def cropDetSub : Detection := ⟨"person", 9 / 10, 51 / 5, 20, 52 / 5, 220⟩

/-- Claim C8 counterexample: the box (10.2, 20, 10.4, 220) lies fully
inside a 640x480 frame and has positive width, yet `crop_person_bbox`
returns None — PIL rounds both x coordinates to pixel 10, the crop is
zero pixels wide, and saving it as JPEG raises, which the except
handler turns into None; no crop with dimensions near (0.2, 200) is
returned. -/
theorem crop_person_bbox_subpixel_box_counterexample :
    (0 ≤ cropDetSub.bbox_x1 ∧ 0 ≤ cropDetSub.bbox_y1 ∧
      cropDetSub.bbox_x2 ≤ ((640 : Nat) : ℚ) ∧
      cropDetSub.bbox_y2 ≤ ((480 : Nat) : ℚ) ∧
      cropDetSub.bbox_x1 < cropDetSub.bbox_x2 ∧
      cropDetSub.bbox_y1 < cropDetSub.bbox_y2)
  ∧ crop_person_bbox decodeW [0] cropDetSub = none := by
  constructor
  · norm_num [cropDetSub]
  · have hx1 : max 0 cropDetSub.bbox_x1 = (51 / 5 : ℚ) := by
      norm_num [cropDetSub]
    have hy1 : max 0 cropDetSub.bbox_y1 = (20 : ℚ) := by
      norm_num [cropDetSub]
    have hx2 : min (((640 : Nat) : ℕ) : ℚ) cropDetSub.bbox_x2 = (52 / 5 : ℚ) := by
      norm_num [cropDetSub]
    have hy2 : min (((480 : Nat) : ℕ) : ℚ) cropDetSub.bbox_y2 = (220 : ℚ) := by
      norm_num [cropDetSub]
    have hr1 : pyRound (51 / 5 : ℚ) = 10 :=
      pyRound_eq_of_lt_half _ 10 (by norm_num) (by norm_num)
    have hr2 : pyRound (52 / 5 : ℚ) = 10 :=
      pyRound_eq_of_lt_half _ 10 (by norm_num) (by norm_num)
    have hguard1 : ¬((52 / 5 : ℚ) - 51 / 5 ≤ 0 ∨ (220 : ℚ) - 20 ≤ 0) := by
      norm_num
    have hguard2 : pyRound (52 / 5 : ℚ) - pyRound (51 / 5 : ℚ) ≤ 0 ∨
        pyRound (220 : ℚ) - pyRound (20 : ℚ) ≤ 0 := by
      left
      rw [hr1, hr2]
      norm_num
    simp only [crop_person_bbox, decodeW, hx1, hy1, hx2, hy2]
    rw [if_neg hguard1, if_pos hguard2]

/-- What `switchbot.unlock()` did this cycle: returned True, returned
False, or raised (both failure modes leave the cycle unlocked). -/
inductive UnlockOutcome
  | success
  | failure
  | raised
deriving DecidableEq

/-- Everything one iteration of `polling_loop` obtains from the outside
world: the poll result, the captured frame, the thumbnail path, the
YOLO detections, the person-crop result, the recognizer, the actuator
outcome, and the wall-clock reads (`tCheck` at the pre-dispatch
cooldown check of the cycle, `tSet` when the unlock succeeds). -/
structure CycleInput where
  ringResult : Option (Nat × String)
  recorded_at : String
  frame : Option (List Nat)
  thumbnail_path : Option String
  detections : List Detection
  crop_result : Option (List Nat)
  identifyResult : List Nat → Option String
  unlockOutcome : UnlockOutcome
  tCheck : ℚ
  tSet : ℚ

/-- `max(person_detections, key=confidence)`: Python `max` keeps the
first element among ties and replaces only on strictly greater keys. -/
def bestPersonOf (detections : List Detection) : Option Detection :=
  match detections.filter (fun d => d.label = "person") with
  | [] => none
  | p :: ps =>
    some (ps.foldl (fun acc d => if acc.confidence < d.confidence then d else acc) p)

/-- The `matched_name` computed by one loop iteration: requires a
captured frame and at least one person detection; identification runs
on the crop when `crop_person_bbox` produced one, else on the full
frame. -/
def matchedOf (inp : CycleInput) : Option String :=
  match inp.frame with
  | none => none
  | some frame =>
    match bestPersonOf inp.detections with
    | none => none
    | some _ =>
      match inp.crop_result with
      | some crop => inp.identifyResult crop
      | none => inp.identifyResult frame

/-- One iteration of `polling_loop` after the initial poll: given the
current `last_unlock_time` and the cycle inputs, returns the updated
`last_unlock_time` and, unless the cycle was abandoned (no poll result
or unfetchable frame), the arguments passed to `store.write_event`.
The unlock is dispatched only when a name matched and the elapsed time
since the last successful unlock reaches the cooldown; only a
successful dispatch sets `unlock_granted`/`door_action` and moves the
timestamp. -/
def cycle (cooldown : ℚ) (camera_id : String) (last_unlock_time : ℚ)
    (inp : CycleInput) : ℚ × Option (EventFields × List DetDict) :=
  match inp.ringResult with
  | none => (last_unlock_time, none)
  | some (recording_id, event_kind) =>
    match inp.frame with
    | none => (last_unlock_time, none)
    | some _ =>
      let matched := matchedOf inp
      let step :=
        match matched with
        | none => (false, "none", last_unlock_time)
        | some _ =>
          if cooldown ≤ inp.tCheck - last_unlock_time then
            match inp.unlockOutcome with
            | .success => (true, "unlocked", inp.tSet)
            | .failure => (false, "none", last_unlock_time)
            | .raised => (false, "none", last_unlock_time)
          else (false, "none", last_unlock_time)
      (step.2.2,
        some ({ camera_id := camera_id
                recorded_at := inp.recorded_at
                recording_id := some (toString recording_id)
                event_type := event_kind
                person_name := matched
                face_confidence := none
                face_distance := none
                unlock_granted := step.1
                door_action := step.2.1
                thumbnail_path := inp.thumbnail_path },
              detections_to_dicts inp.detections))

/-- The polling loop over a finite run of cycles, collecting the events
it persists in order. -/
def polling_run (cooldown : ℚ) (camera_id : String) :
    ℚ → List CycleInput → ℚ × List (EventFields × List DetDict)
  | last, [] => (last, [])
  | last, inp :: rest =>
    let s := cycle cooldown camera_id last inp
    let r := polling_run cooldown camera_id s.1 rest
    (r.1, s.2.toList ++ r.2)

/-- Claim C3: every event the loop persists with `unlock_granted=true`
has `door_action="unlocked"` and a non-null `person_name`. -/
theorem unlock_granted_event_invariant :
    ∀ (cooldown : ℚ) (camera_id : String) (last : ℚ) (inp : CycleInput)
      (ev : EventFields) (dets : List DetDict),
      (cycle cooldown camera_id last inp).2 = some (ev, dets) →
      ev.unlock_granted = true →
      ev.door_action = "unlocked" ∧ ev.person_name.isSome := by
  intro cooldown camera_id last inp ev dets hsome hgrant
  rcases hr : inp.ringResult with _ | ⟨rid, kind⟩
  · simp only [cycle, hr] at hsome
    exact Option.noConfusion hsome
  rcases hf : inp.frame with _ | frame
  · simp only [cycle, hr, hf] at hsome
    exact Option.noConfusion hsome
  simp only [cycle, hr, hf] at hsome
  have hp := Option.some.inj hsome
  rw [Prod.mk.injEq] at hp
  obtain ⟨hev, -⟩ := hp
  subst hev
  rcases hm : matchedOf inp with _ | name <;> simp only [hm] at hgrant ⊢
  · exact absurd hgrant (by simp)
  · by_cases hcool : cooldown ≤ inp.tCheck - last
    · rw [if_pos hcool] at hgrant ⊢
      rcases ho : inp.unlockOutcome with _ | _ | _ <;> simp only [ho] at hgrant ⊢
      · exact ⟨trivial, rfl⟩
      · exact absurd hgrant (by simp)
      · exact absurd hgrant (by simp)
    · rw [if_neg hcool] at hgrant
      exact absurd hgrant (by simp)

/-- Concrete cycle input of a matched, unlock-granting iteration. -/
def inpMatchW : CycleInput :=
  { ringResult := some (7, "motion")
    recorded_at := "2026-02-25T10:40:00"
    frame := some [1]
    thumbnail_path := some "thumbnails/a.jpg"
    detections := [⟨"person", 9 / 10, 0, 0, 50, 80⟩]
    crop_result := some [2]
    identifyResult := fun _ => some "alice"
    unlockOutcome := .success
    tCheck := 100
    tSet := 100 }

/-- The event written by `cycle 60 "front_door" 0 inpMatchW`. -/
def evW : EventFields :=
  { camera_id := "front_door"
    recorded_at := "2026-02-25T10:40:00"
    recording_id := some "7"
    event_type := "motion"
    person_name := some "alice"
    face_confidence := none
    face_distance := none
    unlock_granted := true
    door_action := "unlocked"
    thumbnail_path := some "thumbnails/a.jpg" }

/-- Claim C3 witness: the invariant applied to a concrete granting
cycle. -/
theorem unlock_granted_event_invariant_witness :
    (cycle 60 "front_door" 0 inpMatchW).2
        = some (evW, detections_to_dicts inpMatchW.detections)
  ∧ evW.unlock_granted = true
  ∧ (evW.door_action = "unlocked" ∧ evW.person_name.isSome) :=
  ⟨by (norm_num [cycle, matchedOf, bestPersonOf, inpMatchW, evW]; decide), by decide,
    unlock_granted_event_invariant 60 "front_door" 0 inpMatchW evW
      (detections_to_dicts inpMatchW.detections)
      (by (norm_num [cycle, matchedOf, bestPersonOf, inpMatchW, evW]; decide))
      (by decide)⟩

/-- Claim C4 counterexample: a cycle that matches "alice" still stores
`face_confidence = None` and `face_distance = None` — the stored
confidence is not `1 - distance` and is null on a match. -/
theorem pipeline_null_confidence_counterexample :
    ((cycle 60 "front_door" 0 inpMatchW).2.map
        (fun p => (p.1.person_name, p.1.face_confidence, p.1.face_distance)))
      = some (some "alice", none, none) := by
  norm_num [cycle, matchedOf, bestPersonOf, inpMatchW]

/-- Claim C4 amended: every event the loop persists carries
`face_confidence = None` and `face_distance = None`, matched or not —
the loop hardcodes both to None because `identify` returns only a
name. -/
theorem pipeline_confidence_always_null :
    ∀ (cooldown : ℚ) (camera_id : String) (last : ℚ) (inp : CycleInput)
      (ev : EventFields) (dets : List DetDict),
      (cycle cooldown camera_id last inp).2 = some (ev, dets) →
      ev.face_confidence = none ∧ ev.face_distance = none := by
  intro cooldown camera_id last inp ev dets hsome
  rcases hr : inp.ringResult with _ | ⟨rid, kind⟩
  · simp only [cycle, hr] at hsome
    exact Option.noConfusion hsome
  rcases hf : inp.frame with _ | frame
  · simp only [cycle, hr, hf] at hsome
    exact Option.noConfusion hsome
  simp only [cycle, hr, hf] at hsome
  have hp := Option.some.inj hsome
  rw [Prod.mk.injEq] at hp
  obtain ⟨hev, -⟩ := hp
  subst hev
  exact ⟨rfl, rfl⟩

/-- Claim C4 amended witness: the null-confidence theorem applied to
the concrete matched cycle. -/
theorem pipeline_confidence_always_null_witness :
    (cycle 60 "front_door" 0 inpMatchW).2
        = some (evW, detections_to_dicts inpMatchW.detections)
  ∧ (evW.face_confidence = none ∧ evW.face_distance = none) :=
  ⟨by (norm_num [cycle, matchedOf, bestPersonOf, inpMatchW, evW]; decide),
    pipeline_confidence_always_null 60 "front_door" 0 inpMatchW evW
      (detections_to_dicts inpMatchW.detections)
      (by (norm_num [cycle, matchedOf, bestPersonOf, inpMatchW, evW]; decide))⟩

/-- A cycle whose inputs fall inside the time window `[lo, hi]`, polls
a new occurrence, captures a frame, and matches an identity. -/
def GoodCycle (lo hi : ℚ) (inp : CycleInput) : Prop :=
  inp.ringResult.isSome ∧ inp.frame.isSome ∧ (matchedOf inp).isSome ∧
  lo ≤ inp.tCheck ∧ inp.tCheck ≤ inp.tSet ∧ inp.tSet ≤ hi

/-- Either a cycle leaves the last-unlock timestamp unchanged and every
event it writes has `unlock_granted=false`, or it moved the timestamp
to its `tSet` and the cooldown had elapsed at its `tCheck`. -/
lemma cycle_state_cases (c : ℚ) (cam : String) (last : ℚ) (inp : CycleInput) :
    ((cycle c cam last inp).1 = last ∧
      ∀ p ∈ (cycle c cam last inp).2.toList, p.1.unlock_granted = false)
  ∨ ((cycle c cam last inp).1 = inp.tSet ∧ c ≤ inp.tCheck - last) := by
  rcases hr : inp.ringResult with _ | ⟨rid, kind⟩
  · left
    simp [cycle, hr]
  rcases hf : inp.frame with _ | frame
  · left
    simp [cycle, hr, hf]
  rcases hm : matchedOf inp with _ | name
  · left
    simp [cycle, hr, hf, hm]
  by_cases hcool : c ≤ inp.tCheck - last
  · rcases ho : inp.unlockOutcome with _ | _ | _
    · right
      simp only [cycle, hr, hf, hm, ho, if_pos hcool]
      exact ⟨trivial, hcool⟩
    · left
      simp [cycle, hr, hf, hm, ho, if_pos hcool]
    · left
      simp [cycle, hr, hf, hm, ho, if_pos hcool]
  · left
    rcases ho : inp.unlockOutcome with _ | _ | _ <;>
      simp [cycle, hr, hf, hm, ho, if_neg hcool]

/-- A cycle that polled an occurrence and captured a frame writes
exactly one event. -/
lemma cycle_writes_event (c : ℚ) (cam : String) (last : ℚ) (inp : CycleInput)
    (hr : inp.ringResult.isSome) (hf : inp.frame.isSome) :
    ∃ ev dets, (cycle c cam last inp).2 = some (ev, dets) := by
  rcases hr' : inp.ringResult with _ | ⟨rid, kind⟩
  · rw [hr'] at hr
    exact absurd hr (by simp)
  rcases hf' : inp.frame with _ | frame
  · rw [hf'] at hf
    exact absurd hf (by simp)
  have hs : ((cycle c cam last inp).2).isSome = true := by
    simp only [cycle, hr', hf']
    rfl
  obtain ⟨p, hp⟩ := Option.isSome_iff_exists.mp hs
  exact ⟨p.1, p.2, by rw [hp]⟩

/-- An event written without `unlock_granted` carries
`door_action="none"`. -/
lemma cycle_not_granted_door (c : ℚ) (cam : String) (last : ℚ)
    (inp : CycleInput) (ev : EventFields) (dets : List DetDict)
    (hsome : (cycle c cam last inp).2 = some (ev, dets))
    (hng : ev.unlock_granted = false) : ev.door_action = "none" := by
  rcases hr : inp.ringResult with _ | ⟨rid, kind⟩
  · simp only [cycle, hr] at hsome
    exact Option.noConfusion hsome
  rcases hf : inp.frame with _ | frame
  · simp only [cycle, hr, hf] at hsome
    exact Option.noConfusion hsome
  simp only [cycle, hr, hf] at hsome
  have hp := Option.some.inj hsome
  rw [Prod.mk.injEq] at hp
  obtain ⟨hev, -⟩ := hp
  subst hev
  rcases hm : matchedOf inp with _ | name
  case none =>
    simp [hm]
  case some =>
    by_cases hcool : c ≤ inp.tCheck - last
    · rcases ho : inp.unlockOutcome with _ | _ | _
      · simp only [hm, if_pos hcool, ho] at hng
        exact absurd hng (by simp)
      · simp [hm, if_pos hcool, ho]
      · simp [hm, if_pos hcool, ho]
    · simp [hm, if_neg hcool]

/-- While the last-unlock timestamp lies at or above the window start,
no cycle of a window-bounded run can pass the cooldown gate, so no
unlock is granted and the timestamp never moves. -/
lemma polling_run_no_unlock (c : ℚ) (cam : String) (lo hi : ℚ)
    (hW : hi - lo < c) :
    ∀ (inps : List CycleInput) (last : ℚ),
      (∀ i ∈ inps, GoodCycle lo hi i) → lo ≤ last →
      (((polling_run c cam last inps).2.filter
          (fun e => e.1.unlock_granted)).length = 0 ∧
        (polling_run c cam last inps).1 = last) := by
  intro inps
  induction inps with
  | nil =>
    intro last _ _
    exact ⟨rfl, rfl⟩
  | cons inp rest ih =>
    intro last hgood hlast
    have hg := hgood inp (by simp)
    obtain ⟨-, -, -, htc, htcs, hts⟩ := hg
    have hnc : ¬ c ≤ inp.tCheck - last := by
      intro hc
      have : inp.tCheck ≤ hi := le_trans htcs hts
      linarith
    rcases cycle_state_cases c cam last inp with ⟨hst, hev⟩ | ⟨-, hc⟩
    · have ihr := ih (cycle c cam last inp).1
        (fun i hi' => hgood i (by simp [hi'])) (by rw [hst]; exact hlast)
      simp only [polling_run, List.filter_append, List.length_append]
      constructor
      · have hhead :
            (((cycle c cam last inp).2.toList).filter
              (fun e => e.1.unlock_granted)).length = 0 := by
          rcases hs : (cycle c cam last inp).2 with _ | ⟨ev, dets⟩
          · simp [hs]
          · have hng : ev.unlock_granted = false := hev (ev, dets) (by simp [hs])
            simp [hs, List.filter, hng]
        rw [hhead, ihr.1]
      · exact ihr.2.trans hst
    · exact absurd hc hnc

/-- Claim C2: over any run of matched-identity cycles whose clock reads
all fall in a window `[lo, hi]` shorter than the cooldown, every cycle
persists an event, at most one of those events has
`unlock_granted=true`, and each suppressed or failed one has
`door_action="none"`. -/
theorem cooldown_at_most_one_unlock :
    ∀ (cooldown : ℚ) (camera_id : String) (lo hi : ℚ)
      (inps : List CycleInput) (last : ℚ),
      hi - lo < cooldown →
      (∀ i ∈ inps, GoodCycle lo hi i) →
      ((polling_run cooldown camera_id last inps).2.length = inps.length)
    ∧ (((polling_run cooldown camera_id last inps).2.filter
          (fun e => e.1.unlock_granted)).length ≤ 1)
    ∧ (∀ e ∈ (polling_run cooldown camera_id last inps).2,
        e.1.unlock_granted = false → e.1.door_action = "none") := by
  intro cooldown camera_id lo hi inps
  induction inps with
  | nil =>
    intro last hW _
    exact ⟨rfl, by simp [polling_run], by simp [polling_run]⟩
  | cons inp rest ih =>
    intro last hW hgood
    have hg := hgood inp (by simp)
    obtain ⟨hring, hframe, -, htc, htcs, hts⟩ := hg
    obtain ⟨ev, dets, hs⟩ := cycle_writes_event cooldown camera_id last inp hring hframe
    have ihr := ih (cycle cooldown camera_id last inp).1 hW
      (fun i hi' => hgood i (by simp [hi']))
    refine ⟨?_, ?_, ?_⟩
    · simp only [polling_run, List.length_append, hs, Option.toList_some,
        List.length_cons, List.length_nil]
      omega
    · simp only [polling_run, List.filter_append, List.length_append]
      rcases cycle_state_cases cooldown camera_id last inp with ⟨-, hev⟩ | ⟨hst, -⟩
      · have hhead :
            (((cycle cooldown camera_id last inp).2.toList).filter
              (fun e => e.1.unlock_granted)).length = 0 := by
          have hng : ev.unlock_granted = false := hev (ev, dets) (by simp [hs])
          simp [hs, List.filter, hng]
        rw [hhead]
        have := ihr.2.1
        omega
      · have hhead :
            (((cycle cooldown camera_id last inp).2.toList).filter
              (fun e => e.1.unlock_granted)).length ≤ 1 := by
          simp only [hs, Option.toList_some]
          cases hgr : ev.unlock_granted <;> simp [List.filter, hgr]
        have htail :
            (((polling_run cooldown camera_id
                (cycle cooldown camera_id last inp).1 rest).2.filter
              (fun e => e.1.unlock_granted)).length = 0) := by
          have hlo : lo ≤ (cycle cooldown camera_id last inp).1 := by
            rw [hst]
            linarith
          exact (polling_run_no_unlock cooldown camera_id lo hi hW rest
            (cycle cooldown camera_id last inp).1
            (fun i hi' => hgood i (by simp [hi'])) hlo).1
        omega
    · intro e he hng
      simp only [polling_run, List.mem_append] at he
      rcases he with he | he
      · rw [hs] at he
        simp only [Option.toList_some, List.mem_singleton] at he
        subst he
        exact cycle_not_granted_door cooldown camera_id last inp ev dets hs hng
      · exact ihr.2.2 e he hng

/-- The external face library (`PIL` decode, `face_recognition`
locations/encodings/distance) as an oracle.  `Img` is the decoded
image type, `Enc` the 128-d embedding type; locations are css tuples. -/
structure VisionOracle (Img Enc : Type) where
  decode : List Nat → Option Img
  faceLocations : Img → List (Nat × Nat × Nat × Nat)
  faceEncodings : Img → List (Nat × Nat × Nat × Nat) → List Enc
  distance : Enc → Enc → ℚ

/-- `np.argmin`: index of the first minimal element (0 on `[]`). -/
def argminIdx : List ℚ → Nat
  | [] => 0
  | x :: xs =>
    match xs with
    | [] => 0
    | _ :: _ => if x ≤ xs.getD (argminIdx xs) 0 then 0 else argminIdx xs + 1

/-- The body of the `for encoding in unknown_encodings` loop of
`FaceRecognizer.identify`: distances of this encoding to every
enrolled embedding, `continue` on an empty gallery, else the argmin
index; the matching name is returned when the best distance is within
tolerance. -/
def matchEncoding {Enc : Type} (dist : Enc → Enc → ℚ)
    (gallery : List (Enc × String)) (tol : ℚ) (encoding : Enc) :
    Option String :=
  if (gallery.map (fun p => dist p.1 encoding)).isEmpty then none
  else if (gallery.map (fun p => dist p.1 encoding)).getD
      (argminIdx (gallery.map (fun p => dist p.1 encoding))) 0 ≤ tol then
    some ((gallery.map Prod.snd).getD
      (argminIdx (gallery.map (fun p => dist p.1 encoding))) "")
  else none

/-- `FaceRecognizer.identify`: decode failure and zero located faces
yield None; otherwise the located faces are encoded and the loop
returns the first encoding whose closest enrolled distance passes the
tolerance test. -/
def identify {Img Enc : Type} (V : VisionOracle Img Enc)
    (gallery : List (Enc × String)) (tol : ℚ) (image_bytes : List Nat) :
    Option String :=
  match V.decode image_bytes with
  | none => none
  | some img =>
    match V.faceLocations img with
    | [] => none
    | loc :: locs =>
      (V.faceEncodings img (loc :: locs)).findSome?
        (matchEncoding V.distance gallery tol)

/-- Modelled from the spec: all (distance, name) pairs over every
located-face encoding and every enrolled identity. -/
def galleryPairs {Img Enc : Type} (V : VisionOracle Img Enc)
    (gallery : List (Enc × String)) (encodings : List Enc) :
    List (ℚ × String) :=
  encodings.flatMap (fun e => gallery.map (fun p => (V.distance p.1 e, p.2)))

/-- Modelled from the spec: the globally closest enrolled identity over
a pair list, returned only within tolerance. -/
def bestPair (pairs : List (ℚ × String)) (tol : ℚ) : Option String :=
  if pairs.isEmpty then none
  else if (pairs.map Prod.fst).getD (argminIdx (pairs.map Prod.fst)) 0 ≤ tol then
    some ((pairs.map Prod.snd).getD (argminIdx (pairs.map Prod.fst)) "")
  else none

/-- Modelled from the spec sentence for `identify`: "for each located
face, computes a distance to every enrolled embedding and selects the
globally closest enrolled identity; returns that identity's name only
if its distance is at most a configured tolerance, else None". -/
def identify_spec_global {Img Enc : Type} (V : VisionOracle Img Enc)
    (gallery : List (Enc × String)) (tol : ℚ) (image_bytes : List Nat) :
    Option String :=
  match V.decode image_bytes with
  | none => none
  | some img =>
    match V.faceLocations img with
    | [] => none
    | loc :: locs =>
      bestPair (galleryPairs V gallery (V.faceEncodings img (loc :: locs))) tol

/-- A successful `findSome?` comes from some list element. -/
lemma exists_of_findSome?_some {α β : Type} {f : α → Option β} {b : β} :
    ∀ {l : List α}, l.findSome? f = some b → ∃ a, a ∈ l ∧ f a = some b := by
  intro l
  induction l with
  | nil =>
    intro h
    simp [List.findSome?] at h
  | cons a as ih =>
    intro h
    rw [List.findSome?] at h
    cases hfa : f a with
    | some v =>
      rw [hfa] at h
      exact ⟨a, by simp, by rw [hfa, Option.some.inj h]⟩
    | none =>
      rw [hfa] at h
      obtain ⟨x, hx, hfx⟩ := ih h
      exact ⟨x, by simp [hx], hfx⟩

/-- `argminIdx` of a nonempty list is a valid index. -/
lemma argminIdx_lt_length : ∀ (l : List ℚ), l ≠ [] → argminIdx l < l.length := by
  intro l
  induction l with
  | nil =>
    intro h
    exact absurd rfl h
  | cons x xs ih =>
    intro _
    cases xs with
    | nil => simp [argminIdx]
    | cons y ys =>
      have heq : argminIdx (x :: y :: ys)
          = if x ≤ (y :: ys).getD (argminIdx (y :: ys)) 0 then 0
            else argminIdx (y :: ys) + 1 := rfl
      rw [heq]
      split
      · simp
      · exact Nat.succ_lt_succ (ih (by simp))

/-- `getD` after `map` at a valid index is the function at that entry. -/
lemma getD_map_get {α β : Type} (f : α → β) :
    ∀ (l : List α) (i : Nat) (h : i < l.length) (dflt : β),
      (l.map f).getD i dflt = f (l.get ⟨i, h⟩) := by
  intro l
  induction l with
  | nil =>
    intro i h d
    simp at h
  | cons a as ih =>
    intro i h d
    cases i with
    | zero => rfl
    | succ i => exact ih i (by simpa using h) d

/-- Oracle of the C7 counterexample: one image with two faces whose
encodings are `1` and `2`; `alice` is at distance 2/5 from the first
face, `bob` at distance 1/5 from the second. -/
def cexV : VisionOracle Unit Nat :=
  { decode := fun _ => some ()
    faceLocations := fun _ => [(0, 0, 0, 0), (1, 1, 1, 1)]
    faceEncodings := fun _ _ => [1, 2]
    distance := fun k e =>
      if k = 10 then (if e = 1 then 2 / 5 else 9 / 10)
      else (if e = 1 then 9 / 10 else 1 / 5) }

/-- Gallery of the C7 counterexample. -/
def cexGallery : List (Nat × String) := [(10, "alice"), (20, "bob")]

/-- Claim C7 counterexample: with tolerance 1/2, `identify` returns
`alice` (the first face already passes the tolerance at distance 2/5),
although the globally closest enrolled identity over all located faces
is `bob` at distance 1/5 — the code does not select the global
minimum. -/
theorem identify_not_globally_closest_counterexample :
    identify cexV cexGallery (1 / 2) [0] = some "alice"
  ∧ identify_spec_global cexV cexGallery (1 / 2) [0] = some "bob"
  ∧ some "alice" ≠ some "bob" := by
  refine ⟨?_, ?_, by decide⟩
  · norm_num [identify, cexV, cexGallery, matchEncoding, argminIdx,
      List.findSome?]
  · norm_num [identify_spec_global, cexV, cexGallery, bestPair, galleryPairs,
      argminIdx]

/-- Claim C7 amended: `identify` scans located faces in order and
returns, for the first face whose closest enrolled distance passes the
tolerance, that face's closest enrolled name.  Hence (a) any returned
name belongs to an enrolled identity within tolerance of some located
face, and (b) on images with exactly one face encoding the result
coincides with the spec's globally-closest selection. -/
theorem identify_first_match_semantics :
    (∀ (Img Enc : Type) (V : VisionOracle Img Enc)
        (gallery : List (Enc × String)) (tol : ℚ) (image_bytes : List Nat)
        (n : String),
      identify V gallery tol image_bytes = some n →
      ∃ img, V.decode image_bytes = some img ∧
        ∃ e ∈ V.faceEncodings img (V.faceLocations img),
          ∃ p ∈ gallery, p.2 = n ∧ V.distance p.1 e ≤ tol)
  ∧ (∀ (Img Enc : Type) (V : VisionOracle Img Enc)
        (gallery : List (Enc × String)) (tol : ℚ) (image_bytes : List Nat)
        (img : Img) (loc : Nat × Nat × Nat × Nat)
        (locs : List (Nat × Nat × Nat × Nat)) (e : Enc),
      V.decode image_bytes = some img →
      V.faceLocations img = loc :: locs →
      V.faceEncodings img (loc :: locs) = [e] →
      identify V gallery tol image_bytes
        = identify_spec_global V gallery tol image_bytes) := by
  constructor
  · intro Img Enc V gallery tol image_bytes n h
    cases hd : V.decode image_bytes with
    | none =>
      simp [identify, hd] at h
    | some img =>
      cases hl : V.faceLocations img with
      | nil => simp [identify, hd, hl] at h
      | cons loc locs =>
        simp only [identify, hd, hl] at h
        obtain ⟨e, he, hfe⟩ := exists_of_findSome?_some h
        unfold matchEncoding at hfe
        by_cases h1 : (gallery.map (fun p => V.distance p.1 e)).isEmpty
        · rw [if_pos h1] at hfe
          exact absurd hfe (by simp)
        · rw [if_neg h1] at hfe
          by_cases h2 : (gallery.map (fun p => V.distance p.1 e)).getD
              (argminIdx (gallery.map (fun p => V.distance p.1 e))) 0 ≤ tol
          · rw [if_pos h2] at hfe
            have hne : gallery.map (fun p => V.distance p.1 e) ≠ [] := by
              intro hh
              rw [hh] at h1
              exact h1 rfl
            have hlen : argminIdx (gallery.map (fun p => V.distance p.1 e))
                < (gallery.map (fun p => V.distance p.1 e)).length :=
              argminIdx_lt_length _ hne
            have hlen' : argminIdx (gallery.map (fun p => V.distance p.1 e))
                < gallery.length := by simpa using hlen
            have hname := getD_map_get Prod.snd gallery _ hlen' ""
            rw [hname] at hfe
            have hdist := getD_map_get (fun p => V.distance p.1 e) gallery _ hlen' 0
            rw [hdist] at h2
            exact ⟨img, rfl, e, by rw [hl]; exact he,
              gallery.get ⟨_, hlen'⟩, List.get_mem _ _ _,
              Option.some.inj hfe, h2⟩
          · rw [if_neg h2] at hfe
            exact absurd hfe (by simp)
  · intro Img Enc V gallery tol image_bytes img loc locs e hd hl he
    simp only [identify, identify_spec_global, hd, hl, he]
    have h1 : ([e] : List Enc).findSome? (matchEncoding V.distance gallery tol)
        = matchEncoding V.distance gallery tol e := by
      cases hres : matchEncoding V.distance gallery tol e <;>
        simp [List.findSome?, hres]
    rw [h1]
    have hpairs : galleryPairs V gallery [e]
        = gallery.map (fun p => (V.distance p.1 e, p.2)) := by
      simp [galleryPairs]
    rw [hpairs]
    have hfst : (gallery.map (fun p => (V.distance p.1 e, p.2))).map Prod.fst
        = gallery.map (fun p => V.distance p.1 e) := by
      simp [List.map_map, Function.comp]
    have hsnd : (gallery.map (fun p => (V.distance p.1 e, p.2))).map Prod.snd
        = gallery.map Prod.snd := by
      simp [List.map_map, Function.comp]
    have hemp : (gallery.map (fun p => (V.distance p.1 e, p.2))).isEmpty
        = (gallery.map (fun p => V.distance p.1 e)).isEmpty := by
      cases gallery <;> rfl
    simp only [bestPair, matchEncoding, hfst, hsnd, hemp]

/-- Single-face oracle of the C7 witness. -/
def cexV1 : VisionOracle Unit Nat :=
  { decode := fun _ => some ()
    faceLocations := fun _ => [(0, 0, 0, 0)]
    faceEncodings := fun _ _ => [5]
    distance := fun k _ => if k = 10 then 2 / 5 else 9 / 10 }

/-- Claim C7 amended witness: on a single-face image the code and the
spec's globally-closest selection agree. -/
theorem identify_first_match_semantics_witness :
    identify cexV1 cexGallery (1 / 2) [0]
      = identify_spec_global cexV1 cexGallery (1 / 2) [0] :=
  identify_first_match_semantics.2 Unit Nat cexV1 cexGallery (1 / 2) [0]
    () (0, 0, 0, 0) [] 5 rfl rfl rfl

/-- First cycle of the C2 witness run (matched, unlock succeeds). -/
def inpW1 : CycleInput :=
  { ringResult := some (8, "motion")
    recorded_at := "2026-02-25T10:50:00"
    frame := some [1]
    thumbnail_path := none
    detections := [⟨"person", 9 / 10, 0, 0, 50, 80⟩]
    crop_result := some [2]
    identifyResult := fun _ => some "alice"
    unlockOutcome := .success
    tCheck := 100
    tSet := 101 }

/-- Second cycle of the C2 witness run, five ticks later, within the
60-tick cooldown. -/
def inpW2 : CycleInput :=
  { ringResult := some (9, "motion")
    recorded_at := "2026-02-25T10:50:05"
    frame := some [1]
    thumbnail_path := none
    detections := [⟨"person", 9 / 10, 0, 0, 50, 80⟩]
    crop_result := some [2]
    identifyResult := fun _ => some "alice"
    unlockOutcome := .success
    tCheck := 105
    tSet := 106 }

/-- Claim C2 witness: two matched cycles inside a ten-tick window with
a sixty-tick cooldown both persist events, and at most one is granted
an unlock. -/
theorem cooldown_at_most_one_unlock_witness :
    ((110 : ℚ) - 100 < 60)
  ∧ (∀ i ∈ [inpW1, inpW2], GoodCycle 100 110 i)
  ∧ ((polling_run 60 "front_door" 0 [inpW1, inpW2]).2.length = 2
      ∧ ((polling_run 60 "front_door" 0 [inpW1, inpW2]).2.filter
          (fun e => e.1.unlock_granted)).length ≤ 1) := by
  have hgood : ∀ i ∈ [inpW1, inpW2], GoodCycle 100 110 i := by
    intro i hi
    rcases List.mem_cons.mp hi with rfl | hi
    · norm_num [GoodCycle, inpW1, matchedOf, bestPersonOf]
    rcases List.mem_cons.mp hi with rfl | hi
    · norm_num [GoodCycle, inpW2, matchedOf, bestPersonOf]
    · exact absurd hi (List.not_mem_nil i)
  refine ⟨by norm_num, hgood, ?_, ?_⟩
  · exact (cooldown_at_most_one_unlock 60 "front_door" 100 110 [inpW1, inpW2]
      0 (by norm_num) hgood).1
  · exact (cooldown_at_most_one_unlock 60 "front_door" 100 110 [inpW1, inpW2]
      0 (by norm_num) hgood).2.1

end Watchtower
